import Mathlib

/-!
Verification development for the p1 trading-backtest core.

Shallow embedding of `src/backtest_engine.py` (trade simulator and metrics
calculator), the strategy generators in `src/api/strategies/` (RSI, SMA
crossover, VWAP+IB, ML signal validator) and the JSON sanitizer in
`src/api/routes/backtest.py`.  Prices and capital are rationals; timestamps
are naturals.  Python float division by zero does not occur on the inputs the
claims are about; where pandas produces NaN (undefined RSI, SMA or VWAP
values) the embedding uses `Option`, with `none` comparing false on both
sides exactly as NaN does.
-/

namespace P1Backtest

/-- Trade direction, the `signal` column values `'LONG'` / `'SHORT'`. -/
inductive Direction where
  | long
  | short
deriving DecidableEq, Repr

/-- One OHLCV bar of the price DataFrame; `time` is the DataFrame index. -/
structure Bar where
  time : ℕ
  open_ : ℚ
  high : ℚ
  low : ℚ
  close : ℚ
deriving DecidableEq, Repr

/-- A signal row as produced by `generate_signals` (only the engine-relevant
columns: `timestamp`, `signal`, `price`). -/
structure Signal where
  timestamp : ℕ
  signal : Direction
  price : ℚ
deriving DecidableEq, Repr

/-- The `config` dict built inside `BacktestEngine.run_backtest`. -/
structure RiskConfig where
  position_size : ℚ
  stop_loss_pct : ℚ
  take_profit_pct : ℚ
  commission : ℚ
  slippage : ℚ
deriving DecidableEq, Repr

/-- The hard-coded configuration of `run_backtest`:
position_size 0.1, stop 0.005, take profit 0.01, commission 0.001,
slippage 0.0005. -/
def engineConfig : RiskConfig :=
  { position_size := 1/10
    stop_loss_pct := 5/1000
    take_profit_pct := 1/100
    commission := 1/1000
    slippage := 5/10000 }

/-- `(signal['signal'] == 'LONG' and current_low <= stop_price) or
(signal['signal'] == 'SHORT' and current_high >= stop_price)`. -/
def stopHit (dir : Direction) (stopPrice : ℚ) (b : Bar) : Bool :=
  match dir with
  | .long => decide (b.low ≤ stopPrice)
  | .short => decide (stopPrice ≤ b.high)

/-- `(signal['signal'] == 'LONG' and current_high >= target_price) or
(signal['signal'] == 'SHORT' and current_low <= target_price)`. -/
def targetHit (dir : Direction) (targetPrice : ℚ) (b : Bar) : Bool :=
  match dir with
  | .long => decide (targetPrice ≤ b.high)
  | .short => decide (b.low ≤ targetPrice)

/-- Exit information: `exit_price`, `exit_reason`, `exit_time_idx`. -/
structure ExitInfo where
  price : ℚ
  reason : String
  time : ℕ
deriving DecidableEq, Repr

/-- The bar-by-bar exit scan of `run_backtest` over `exit_data`: stop-loss is
checked first, then take-profit, and the last bar (empty tail) closes the
trade with `end_of_data`.  `dflt` is the initial `time_exit` record built from
the first bar of `exit_data`; it survives only if `exit_data` is empty, which
the caller has already excluded. -/
def scanLoop (dir : Direction) (stopPrice targetPrice : ℚ) (dflt : ExitInfo) :
    List Bar → ExitInfo
  | [] => dflt
  | b :: rest =>
    if stopHit dir stopPrice b then ⟨stopPrice, "stop_loss", b.time⟩
    else if targetHit dir targetPrice b then ⟨targetPrice, "take_profit", b.time⟩
    else if rest.isEmpty then ⟨b.close, "end_of_data", b.time⟩
    else scanLoop dir stopPrice targetPrice dflt rest

/-- A trade record (`trade_data` dict), engine-relevant fields. -/
structure Trade where
  entry_time : ℕ
  exit_time : ℕ
  signal : Direction
  entry_price : ℚ
  exit_price : ℚ
  exit_reason : String
  pnl : ℚ
  pnl_pct : ℚ
  capital : ℚ
  stop_price : ℚ
  target_price : ℚ
deriving DecidableEq, Repr

/-- `stop_price` as computed from the entry price and direction. -/
def stopPriceOf (cfg : RiskConfig) (s : Signal) : ℚ :=
  match s.signal with
  | .long => s.price * (1 - cfg.stop_loss_pct)
  | .short => s.price * (1 + cfg.stop_loss_pct)

/-- `target_price` as computed from the entry price and direction. -/
def targetPriceOf (cfg : RiskConfig) (s : Signal) : ℚ :=
  match s.signal with
  | .long => s.price * (1 + cfg.take_profit_pct)
  | .short => s.price * (1 - cfg.take_profit_pct)

/-- `exit_data = df[df.index > entry_time]`. -/
def exitDataOf (bars : List Bar) (s : Signal) : List Bar :=
  bars.filter (fun b => decide (s.timestamp < b.time))

/-- The body of the per-signal loop of `run_backtest`, producing one trade
from a signal, the bar series and the capital before the trade.  Only called
when `exitDataOf bars s` is nonempty (the Python `continue` case is handled by
the caller); on an empty `exit_data` the `time_exit` default degenerates. -/
def simulateTrade (cfg : RiskConfig) (bars : List Bar) (s : Signal) (capital : ℚ) :
    Trade :=
  let stopPrice := stopPriceOf cfg s
  let targetPrice := targetPriceOf cfg s
  let exitData := exitDataOf bars s
  let dflt : ExitInfo :=
    match exitData with
    | [] => ⟨0, "time_exit", 0⟩
    | b0 :: _ => ⟨b0.open_, "time_exit", b0.time⟩
  let einfo := scanLoop s.signal stopPrice targetPrice dflt exitData
  let exitPrice :=
    match s.signal with
    | .long => einfo.price * (1 - cfg.slippage)
    | .short => einfo.price * (1 + cfg.slippage)
  let rawPct :=
    match s.signal with
    | .long => (exitPrice - s.price) / s.price
    | .short => (s.price - exitPrice) / s.price
  let pnlPct := rawPct - cfg.commission * 2
  let riskAmount := capital * cfg.position_size
  let pnl := riskAmount * pnlPct
  { entry_time := s.timestamp
    exit_time := einfo.time
    signal := s.signal
    entry_price := s.price
    exit_price := exitPrice
    exit_reason := einfo.reason
    pnl := pnl
    pnl_pct := pnlPct
    capital := capital + pnl
    stop_price := stopPrice
    target_price := targetPrice }

/-- The signal loop of `run_backtest`: `break` when `capital <= 0`,
`continue` (no trade) when no bars lie strictly after the entry time,
otherwise append a trade and compound the capital. -/
def processSignals (cfg : RiskConfig) (bars : List Bar) :
    List Signal → ℚ → List Trade
  | [], _ => []
  | s :: rest, capital =>
    if capital ≤ 0 then []
    else if (exitDataOf bars s).isEmpty then processSignals cfg bars rest capital
    else
      let t := simulateTrade cfg bars s capital
      t :: processSignals cfg bars rest t.capital

/-- Capital after the loop: the last trade's running capital, or the starting
capital when no trade was simulated (skipped signals leave it unchanged). -/
def finalCapital (start : ℚ) (trades : List Trade) : ℚ :=
  (trades.getLast?).elim start (fun t => t.capital)

/-- `profit_factor`: a finite ratio, or the `float('inf')` sentinel. -/
inductive PFValue where
  | finite (q : ℚ)
  | inf
deriving DecidableEq, Repr

/-- The metrics dict of `_calculate_performance_metrics` (the rational-valued
fields; `sharpe_ratio`, `avg_trade_duration_hours` and `ml_metrics` involve
square roots / datetime arithmetic and are not needed by any claim). -/
structure PerfMetrics where
  total_return : ℚ
  total_trades : ℕ
  win_rate : ℚ
  avg_win : ℚ
  avg_loss : ℚ
  profit_factor : PFValue
  max_drawdown : ℚ
deriving DecidableEq, Repr

/-- Result of `_calculate_performance_metrics`: the empty dict `{}` for an
empty trade list, otherwise a populated metrics record. -/
inductive MetricsResult where
  | empty
  | metrics (m : PerfMetrics)
deriving DecidableEq, Repr

/-- `equity_curve.expanding().max()` with a given running maximum so far. -/
def expandingMaxAux (m : ℚ) : List ℚ → List ℚ
  | [] => []
  | x :: xs => max m x :: expandingMaxAux (max m x) xs

/-- `equity_curve.expanding().max()`. -/
def expandingMax : List ℚ → List ℚ
  | [] => []
  | x :: xs => x :: expandingMaxAux x xs

/-- `.min()` over a series known to be nonempty (0 on an empty list). -/
def listMinD : List ℚ → ℚ
  | [] => 0
  | x :: xs => xs.foldl min x

/-- `BacktestEngine._calculate_performance_metrics`.  The per-bucket means
use the same `if len(...) > 0 else 0` guards as the source; the profit factor
is `abs(win_sum / loss_sum)` guarded by `len(losing) > 0 and loss_sum != 0`,
else the infinity sentinel. -/
def calcPerformanceMetrics (trades : List Trade) (initialCapital : ℚ) :
    MetricsResult :=
  match trades with
  | [] => .empty
  | t0 :: rest =>
    let l := t0 :: rest
    let caps := l.map (fun t => t.capital)
    let winning := l.filter (fun t => decide (0 < t.pnl))
    let losing := l.filter (fun t => decide (t.pnl < 0))
    let winSum := (winning.map (fun t => t.pnl)).sum
    let lossSum := (losing.map (fun t => t.pnl)).sum
    let drawdowns := List.zipWith (fun c m => (c - m) / m) caps (expandingMax caps)
    .metrics
      { total_return := (caps.getLastD 0 - initialCapital) / initialCapital
        total_trades := l.length
        win_rate := (winning.length : ℚ) / (l.length : ℚ)
        avg_win := if 0 < winning.length then winSum / (winning.length : ℚ) else 0
        avg_loss := if 0 < losing.length then lossSum / (losing.length : ℚ) else 0
        profit_factor :=
          if 0 < losing.length ∧ lossSum ≠ 0 then .finite (abs (winSum / lossSum))
          else .inf
        max_drawdown := listMinD drawdowns }

/-- Outcome of `run_backtest`: the `{"error": msg}` dict, or the result dict.
The Python function never lets an exception escape (the final `except` also
produces an `"error"` dict), so a total function models it. -/
inductive BacktestOutcome where
  | error (msg : String)
  | ok (trades : List Trade) (total_trades : ℕ) (final_capital : ℚ)
      (total_return : ℚ) (performance_metrics : MetricsResult)
deriving DecidableEq, Repr

/-- `BacktestEngine.run_backtest` from the generated signals onward: the
zero-signal check and the trade loop plus result assembly. -/
def runBacktest (initialCapital : ℚ) (signals : List Signal) (bars : List Bar)
    (asset strategyId : String) : BacktestOutcome :=
  if signals.isEmpty then
    .error ("No signals generated for " ++ asset ++ " with strategy " ++ strategyId)
  else
    let trades := processSignals engineConfig bars signals initialCapital
    let cap := finalCapital initialCapital trades
    .ok trades trades.length cap ((cap - initialCapital) / initialCapital)
      (calcPerformanceMetrics trades initialCapital)

/-- A JSON value as handled by `sanitize_for_json` in
`src/api/routes/backtest.py`; Python floats are split into finite values,
NaN and (either-signed) Infinity, the two classes `math.isnan` / `math.isinf`
detect. -/
inductive JsonVal where
  | null
  | bool (b : Bool)
  | num (q : ℚ)
  | nan
  | inf
  | str (s : String)
  | arr (xs : List JsonVal)
  | obj (fields : List (String × JsonVal))

mutual

/-- `sanitize_for_json`: recurse through dicts and lists, map NaN/Infinity
floats to `None`, leave everything else unchanged. -/
def sanitizeForJson : JsonVal → JsonVal
  | .obj fs => .obj (sanitizeObj fs)
  | .arr xs => .arr (sanitizeArr xs)
  | .nan => .null
  | .inf => .null
  | .null => .null
  | .bool b => .bool b
  | .num q => .num q
  | .str s => .str s

/-- `sanitize_for_json` on the elements of a list. -/
def sanitizeArr : List JsonVal → List JsonVal
  | [] => []
  | v :: vs => sanitizeForJson v :: sanitizeArr vs

/-- `sanitize_for_json` on the values of a dict. -/
def sanitizeObj : List (String × JsonVal) → List (String × JsonVal)
  | [] => []
  | (k, v) :: fs => (k, sanitizeForJson v) :: sanitizeObj fs

end

mutual

/-- No NaN or Infinity anywhere inside a JSON value. -/
def nanInfFree : JsonVal → Bool
  | .nan => false
  | .inf => false
  | .arr xs => nanInfFreeArr xs
  | .obj fs => nanInfFreeObj fs
  | _ => true

/-- No NaN or Infinity in any element of a list. -/
def nanInfFreeArr : List JsonVal → Bool
  | [] => true
  | v :: vs => nanInfFree v && nanInfFreeArr vs

/-- No NaN or Infinity in any value of a dict. -/
def nanInfFreeObj : List (String × JsonVal) → Bool
  | [] => true
  | (_, v) :: fs => nanInfFree v && nanInfFreeObj fs

end

/-- The metrics dict as serialized toward the JSON boundary (the
rational-valued fields; `float(profit_factor)` keeps the infinity, which is
what reaches the sanitizer). -/
def metricsToJson (m : PerfMetrics) : JsonVal :=
  .obj
    [ ("total_return", .num m.total_return)
    , ("total_trades", .num (m.total_trades : ℚ))
    , ("win_rate", .num m.win_rate)
    , ("avg_win", .num m.avg_win)
    , ("avg_loss", .num m.avg_loss)
    , ("profit_factor",
        match m.profit_factor with
        | .finite q => .num q
        | .inf => .inf)
    , ("max_drawdown", .num m.max_drawdown) ]

/-- Field access in a serialized JSON object. -/
def jsonField (v : JsonVal) (key : String) : Option JsonVal :=
  match v with
  | .obj fs => (fs.find? (fun p => p.1 == key)).map (fun p => p.2)
  | _ => none

/-! ## RSI strategy (`src/api/strategies/rsi_oversold.py`)

`closes` is the `close` column indexed by position; a bar's position stands
for its DataFrame timestamp. -/

/-- `prices.diff()`: `none` is the NaN at position 0. -/
def deltaAt (prices : List ℚ) (i : ℕ) : Option ℚ :=
  if i = 0 then none else some (prices.getD i 0 - prices.getD (i - 1) 0)

/-- `delta.where(delta > 0, 0)`: the NaN at position 0 fails `delta > 0` and
becomes 0. -/
def gainAt (prices : List ℚ) (i : ℕ) : ℚ :=
  match deltaAt prices i with
  | none => 0
  | some d => if 0 < d then d else 0

/-- `-delta.where(delta < 0, 0)`, again with the position-0 NaN mapped to 0. -/
def lossAt (prices : List ℚ) (i : ℕ) : ℚ :=
  match deltaAt prices i with
  | none => 0
  | some d => if d < 0 then -d else 0

/-- `gain.rolling(window=period).mean()` at position `i`: a plain mean over
the last `period` gains, undefined (NaN) before the window fills.  Defined
for `period ≥ 1` (pandas rejects a zero window). -/
def avgGainAt (prices : List ℚ) (period i : ℕ) : Option ℚ :=
  if i + 1 < period then none
  else some ((((List.range period).map (fun k => gainAt prices (i - k))).sum) / (period : ℚ))

/-- `loss.rolling(window=period).mean()` at position `i`. -/
def avgLossAt (prices : List ℚ) (period i : ℕ) : Option ℚ :=
  if i + 1 < period then none
  else some ((((List.range period).map (fun k => lossAt prices (i - k))).sum) / (period : ℚ))

/-- `RSIStrategy.calculate_rsi` at position `i`:
`rsi = 100 - 100 / (1 + gain/loss)`.  In float arithmetic an average loss of
0 makes `rs` +Infinity (so `rsi = 100`) when the average gain is positive,
and NaN (undefined, skipped downstream) when it is 0. -/
def rsiAt (prices : List ℚ) (period i : ℕ) : Option ℚ :=
  match avgGainAt prices period i, avgLossAt prices period i with
  | some g, some l =>
    if l = 0 then (if g = 0 then none else some 100)
    else some (100 - 100 / (1 + g / l))
  | _, _ => none

/-- The strategy's `position` latch: `None` / `'LONG'` / `'SHORT'`. -/
inductive Latch where
  | flat
  | long
  | short
deriving DecidableEq, Repr

/-- An RSI signal row: timestamp, direction, close price and RSI value. -/
structure RsiSignal where
  timestamp : ℕ
  signal : Direction
  price : ℚ
  rsi : ℚ
deriving DecidableEq, Repr

/-- The signal loop of `RSIStrategy.generate_signals` over rows of
`(timestamp, rsi, close)`: rows with undefined RSI are skipped
(`pd.notna`); LONG is emitted when `rsi < oversold` and the latch is not
LONG, then SHORT when `rsi > overbought` and the latch is not SHORT. -/
def rsiLoop (oversold overbought : ℚ) :
    List (ℕ × Option ℚ × ℚ) → Latch → List RsiSignal
  | [], _ => []
  | (t, r?, c) :: rest, pos =>
    match r? with
    | none => rsiLoop oversold overbought rest pos
    | some r =>
      if r < oversold ∧ pos ≠ .long then
        ⟨t, .long, c, r⟩ :: rsiLoop oversold overbought rest .long
      else if overbought < r ∧ pos ≠ .short then
        ⟨t, .short, c, r⟩ :: rsiLoop oversold overbought rest .short
      else rsiLoop oversold overbought rest pos

/-- `RSIStrategy.generate_signals` on a close series. -/
def generateSignalsRSI (period : ℕ) (oversold overbought : ℚ)
    (closes : List ℚ) : List RsiSignal :=
  rsiLoop oversold overbought
    ((List.range closes.length).map (fun i => (i, rsiAt closes period i, closes.getD i 0)))
    .flat

/-- Follows the spec's words, for comparison with `rsiAt`: Wilder's
recursive smoothing of a gain/loss series — seed with the plain mean of the
first `period` values after the first diff, then
`avg_i = (avg_(i-1)·(period-1) + x_i) / period`. -/
def wilderSmooth (x : ℕ → ℚ) (period : ℕ) : ℕ → Option ℚ
  | 0 => none
  | i + 1 =>
    if i + 1 < period then none
    else if i + 1 = period then
      some ((((List.range period).map (fun k => x (k + 1))).sum) / (period : ℚ))
    else (wilderSmooth x period i).map (fun a => (a * ((period : ℚ) - 1) + x (i + 1)) / (period : ℚ))

/-- Follows the spec's words: RSI from Wilder's recursively smoothed average
gain and loss, with the same degenerate-loss handling as `rsiAt`. -/
def wilderRsiAt (prices : List ℚ) (period i : ℕ) : Option ℚ :=
  match wilderSmooth (fun j => gainAt prices j) period i,
        wilderSmooth (fun j => lossAt prices j) period i with
  | some g, some l =>
    if l = 0 then (if g = 0 then none else some 100)
    else some (100 - 100 / (1 + g / l))
  | _, _ => none

/-! ## SMA crossover strategy (`src/api/strategies/sma_crossover.py`) -/

/-- `close.rolling(window=period).mean()` at position `i` (NaN before the
window fills; `period ≥ 1` as pandas rejects a zero window). -/
def smaAt (closes : List ℚ) (period i : ℕ) : Option ℚ :=
  if i + 1 < period then none
  else some ((((List.range period).map (fun k => closes.getD (i - k) 0)).sum) / (period : ℚ))

/-- `(df['sma_fast'] > df['sma_slow']).astype(int)` at position `i`:
a comparison against NaN is false, so the position state is 0 wherever an
SMA is undefined. -/
def positionAt (closes : List ℚ) (fast slow i : ℕ) : Bool :=
  match smaAt closes fast i, smaAt closes slow i with
  | some f, some s => decide (s < f)
  | _, _ => false

/-- An SMA crossover signal row (timestamp = bar position, price = close). -/
structure SmaSignal where
  timestamp : ℕ
  signal : Direction
  price : ℚ
deriving DecidableEq, Repr

/-- `position.diff()` tested against `1` / `-1` at position `i`: the NaN at
position 0 matches neither, so no signal is emitted there. -/
def smaCrossAt (closes : List ℚ) (fast slow i : ℕ) : Option Direction :=
  if i = 0 then none
  else if positionAt closes fast slow i ∧ ¬ positionAt closes fast slow (i - 1) then
    some .long
  else if ¬ positionAt closes fast slow i ∧ positionAt closes fast slow (i - 1) then
    some .short
  else none

/-- `SMACrossover.generate_signals` on a close series. -/
def generateSignalsSMA (fast slow : ℕ) (closes : List ℚ) : List SmaSignal :=
  (List.range closes.length).filterMap (fun i =>
    (smaCrossAt closes fast slow i).map (fun d => ⟨i, d, closes.getD i 0⟩))

/-! ## VWAP + Initial Balance strategy (`src/api/strategies/vwap_strategy.py`)

Bar timestamps are absolute minutes; `between_time` works on minute-of-day.
The `groupby(session_date)` step partitions the frame into daily groups,
so the generator is embedded over that list of groups. -/

/-- An OHLCV bar for the VWAP strategy; `time` in absolute minutes. -/
structure VBar where
  time : ℕ
  high : ℚ
  low : ℚ
  close : ℚ
  volume : ℚ
deriving DecidableEq, Repr

/-- Minute-of-day of an absolute minute timestamp. -/
def timeOfDay (t : ℕ) : ℕ := t % 1440

/-- Membership in a `between_time(s, e)` window (inclusive ends; a window
with `s > e` wraps past midnight, as pandas does). -/
def inWindow (s e t : ℕ) : Bool :=
  if s ≤ e then decide (s ≤ timeOfDay t ∧ timeOfDay t ≤ e)
  else decide (s ≤ timeOfDay t ∨ timeOfDay t ≤ e)

/-- `DataFrame.between_time(s, e)` on a bar list. -/
def betweenTime (s e : ℕ) (bars : List VBar) : List VBar :=
  bars.filter (fun b => inWindow s e b.time)

/-- The strategy's time-window parameters, as minutes of day. -/
structure VWAPParams where
  ibStart : ℕ
  ibEnd : ℕ
  sessionStart : ℕ
  sessionEnd : ℕ
deriving DecidableEq, Repr

/-- `.max()` over a series known to be nonempty (0 on an empty list). -/
def listMaxD : List ℚ → ℚ
  | [] => 0
  | x :: xs => xs.foldl max x

/-- `BaseStrategy.calculate_vwap` at position `i` of the trading candles:
cumulative typical-price·volume over cumulative volume.  A zero cumulative
volume (all volumes 0 so far, numerator also 0) is NaN in floats, modelled
as `none`; comparisons against it are false on both sides. -/
def vwapAt (bars : List VBar) (i : ℕ) : Option ℚ :=
  let pre := bars.take (i + 1)
  let denom := (pre.map (fun b => b.volume)).sum
  if denom = 0 then none
  else some ((pre.map (fun b => ((b.high + b.low + b.close) / 3) * b.volume)).sum / denom)

/-- A VWAP+IB signal row. -/
structure VSignal where
  timestamp : ℕ
  signal : Direction
  price : ℚ
  vwap : Option ℚ
  ib_high : ℚ
  ib_low : ℚ
deriving DecidableEq, Repr

/-- `long_flag = close_price > ib_high and close_price > current_vwap`. -/
def longFlag (ibHigh : ℚ) (e : VBar × Option ℚ) : Bool :=
  decide (ibHigh < e.1.close) &&
    (match e.2 with
     | some v => decide (v < e.1.close)
     | none => false)

/-- `short_flag = close_price < ib_low and close_price < current_vwap`. -/
def shortFlag (ibLow : ℚ) (e : VBar × Option ℚ) : Bool :=
  decide (e.1.close < ibLow) &&
    (match e.2 with
     | some v => decide (e.1.close < v)
     | none => false)

/-- The signal (if any) a single trading candle would produce: the long flag
is tested first, as in the `if long_flag: ... elif short_flag:` source. -/
def sigOf (ibHigh ibLow : ℚ) (e : VBar × Option ℚ) : Option VSignal :=
  if longFlag ibHigh e then some ⟨e.1.time, .long, e.1.close, e.2, ibHigh, ibLow⟩
  else if shortFlag ibLow e then some ⟨e.1.time, .short, e.1.close, e.2, ibHigh, ibLow⟩
  else none

/-- The candle scan with the `trade_entered` latch: the loop appends the
first breakout signal and breaks out of the session at the next iteration. -/
def scanSession (ibHigh ibLow : ℚ) : List (VBar × Option ℚ) → List VSignal
  | [] => []
  | e :: rest =>
    match sigOf ibHigh ibLow e with
    | some sig => [sig]
    | none => scanSession ibHigh ibLow rest

/-- The per-session body of `VWAPStrategy.generate_signals`: restrict to the
session window, skip the session if it or its Initial-Balance sub-window or
its trading window is empty, compute `ib_high`/`ib_low`, then scan the
trading candles paired with their running VWAP. -/
def processSession (p : VWAPParams) (daily : List VBar) : List VSignal :=
  let sessionData := betweenTime p.sessionStart p.sessionEnd daily
  if sessionData.isEmpty then []
  else
    let ibData := betweenTime p.ibStart p.ibEnd sessionData
    if ibData.isEmpty then []
    else
      let ibHigh := listMaxD (ibData.map (fun b => b.high))
      let ibLow := listMinD (ibData.map (fun b => b.low))
      let trading := betweenTime p.ibEnd p.sessionEnd sessionData
      if trading.isEmpty then []
      else
        scanSession ibHigh ibLow
          (trading.zip ((List.range trading.length).map (fun i => vwapAt trading i)))

/-- `VWAPStrategy.generate_signals` over the daily session groups (the ML
confidence decoration at the end of the source function does not add or drop
signals and is not modelled). -/
def generateSignalsVWAP (p : VWAPParams) (sessions : List (List VBar)) : List VSignal :=
  (sessions.map (fun d => processSession p d)).flatten

/-! ## ML signal validator (`src/api/strategies/signal_validator.py`) -/

/-- A validated signal row: the base signal's fields plus `original_signal`,
`ml_confidence` and `ml_validated`. -/
structure ValidatedSignal where
  timestamp : ℕ
  signal : Direction
  price : ℚ
  original_signal : Direction
  ml_confidence : ℚ
  ml_validated : Bool
deriving DecidableEq, Repr

/-- The validation loop of `SignalValidatorStrategy.generate_signals`:
`conf` abstracts `SignalClassifier.predict_confidence` on the fixed market
context, `isTrained` the classifier's `is_trained` flag.  A signal is kept
when `(fallback_to_original and not is_trained) or ml_validated`, where
`ml_validated = (confidence >= confidence_threshold)`. -/
def validateSignals (conf : Signal → ℚ) (isTrained fallback : Bool)
    (threshold : ℚ) (signals : List Signal) : List ValidatedSignal :=
  signals.filterMap (fun s =>
    let c := conf s
    let validated := decide (threshold ≤ c)
    if (fallback && !isTrained) || validated then
      some ⟨s.timestamp, s.signal, s.price, s.signal, c, validated⟩
    else none)

/-! ## Auxiliary predicates used by the theorems -/

/-- Whether a backtest outcome is the `{"error": ...}` dict. -/
def BacktestOutcome.isErr : BacktestOutcome → Bool
  | .error _ => true
  | .ok _ _ _ _ _ => false

/-- The profit factor of a metrics result, when one was produced. -/
def MetricsResult.profitFactor? : MetricsResult → Option PFValue
  | .empty => none
  | .metrics m => some m.profit_factor

/-- The position-sizing recurrence along a trade list: starting from capital
`c`, each trade's pnl is `c · posSize` (the risk amount) times its `pnl_pct`,
its recorded capital is `c` plus that pnl, and the rest of the list chains
from the recorded capital. -/
def chained (posSize : ℚ) : ℚ → List Trade → Prop
  | _, [] => True
  | c, t :: ts =>
    t.pnl = c * posSize * t.pnl_pct ∧ t.capital = c + t.pnl ∧ chained posSize t.capital ts

/-! ## Theorems -/

/-- Claim C1: in the trade simulator's exit scan, the stop-loss check comes
before the take-profit check on every bar after entry: if no earlier bar of
the exit data breaches either level and a bar breaches the stop price
(whether or not it also breaches the target price), the scan exits with
`exit_reason = "stop_loss"` at the stop price on that bar. -/
theorem exit_scan_stop_priority (dir : Direction) (stopPrice targetPrice : ℚ)
    (dflt : ExitInfo) (pre : List Bar) (b : Bar) (post : List Bar)
    (hpre : ∀ x ∈ pre, stopHit dir stopPrice x = false ∧ targetHit dir targetPrice x = false)
    (hb : stopHit dir stopPrice b = true) :
    scanLoop dir stopPrice targetPrice dflt (pre ++ b :: post) =
      ⟨stopPrice, "stop_loss", b.time⟩ := by
  induction pre with
  | nil => simp [scanLoop, hb]
  | cons x xs ih =>
    have hx := hpre x (List.mem_cons_self x xs)
    have hxs : ∀ y ∈ xs, stopHit dir stopPrice y = false ∧ targetHit dir targetPrice y = false :=
      fun y hy => hpre y (List.mem_cons_of_mem x hy)
    have hne : (xs ++ b :: post).isEmpty = false := by
      cases xs <;> rfl
    simp [List.cons_append, scanLoop, hx.1, hx.2, hne, ih hxs]

/-- Witness for C1, the spec's concrete instance: a LONG entry at 100 under
the engine configuration has stop 99.5 and target 101; a bar with low 99.4
and high 101.2 breaches both, and the scan exits with stop_loss at 99.5
(before slippage), as does the full per-signal simulation. -/
theorem exit_scan_stop_priority_witness :
    stopHit .long (199/2) ⟨1, 100, 506/5, 497/5, 100⟩ = true ∧
    targetHit .long 101 ⟨1, 100, 506/5, 497/5, 100⟩ = true ∧
    stopPriceOf engineConfig ⟨0, .long, 100⟩ = 199/2 ∧
    targetPriceOf engineConfig ⟨0, .long, 100⟩ = 101 ∧
    scanLoop .long (199/2) 101 ⟨100, "time_exit", 1⟩ [⟨1, 100, 506/5, 497/5, 100⟩] =
      ⟨199/2, "stop_loss", 1⟩ ∧
    (simulateTrade engineConfig [⟨1, 100, 506/5, 497/5, 100⟩] ⟨0, .long, 100⟩ 10000).exit_reason =
      "stop_loss" :=
  ⟨by norm_num [stopHit], by norm_num [targetHit],
    by norm_num [stopPriceOf, engineConfig], by norm_num [targetPriceOf, engineConfig],
    exit_scan_stop_priority .long (199/2) 101 ⟨100, "time_exit", 1⟩ []
      ⟨1, 100, 506/5, 497/5, 100⟩ [] (by simp) (by norm_num [stopHit]),
    by norm_num [simulateTrade, scanLoop, exitDataOf, stopPriceOf, targetPriceOf,
      engineConfig, stopHit, targetHit, List.filter]⟩

/-- Claim C2: capital compounds across simulated trades: every trade's pnl is
`position_size` times the running capital after all previous trades times its
`pnl_pct`, and its recorded capital is that running capital plus the pnl.
With position-size fraction 1/2 and two +10% trades from capital 10000 the
recorded capitals are 10500 and 11025 (the second risk amount is taken
from 10500). -/
theorem trade_compounding :
    (∀ (cfg : RiskConfig) (bars : List Bar) (signals : List Signal) (cap : ℚ),
      chained cfg.position_size cap (processSignals cfg bars signals cap)) ∧
    (processSignals ⟨1/2, 1/20, 1/10, 0, 0⟩ [⟨2, 100, 111, 105, 110⟩]
        [⟨0, .long, 100⟩, ⟨1, .long, 100⟩] 10000).map (fun t => t.capital) =
      [10500, 11025] := by
  constructor
  · intro cfg bars signals
    induction signals with
    | nil => intro cap; trivial
    | cons s rest ih =>
      intro cap
      by_cases h : cap ≤ 0
      · simp [processSignals, h, chained]
      · by_cases h2 : (exitDataOf bars s).isEmpty
        · simpa [processSignals, h, h2] using ih cap
        · simp only [processSignals, h, h2, if_false, Bool.false_eq_true, if_true]
          exact ⟨rfl, rfl, ih _⟩
  · norm_num [processSignals, simulateTrade, scanLoop, exitDataOf, stopPriceOf,
      targetPriceOf, stopHit, targetHit, List.filter, chained]

/-- Claim C3 counterexample: a signal with bars strictly after its entry time
nevertheless produces no trade when the running capital is not positive — the
`if capital <= 0: break` guard stops the simulation, contradicting the claim
that no condition other than a missing post-entry bar skips a signal. -/
theorem capital_guard_counterexample :
    processSignals engineConfig [⟨1, 100, 506/5, 497/5, 100⟩] [⟨0, .long, 100⟩] 0 = [] ∧
    exitDataOf [⟨1, 100, 506/5, 497/5, 100⟩] ⟨0, .long, 100⟩ ≠ [] := by
  constructor
  · norm_num [processSignals]
  · norm_num [exitDataOf, List.filter]

/-- Claim C3 (amended): signals are processed strictly in list (timestamp)
order; each signal opens exactly one trade, except that a signal with no bars
strictly after its entry time is discarded, and except that a signal reached
with running capital ≤ 0 stops the simulation, producing no further
trades. -/
theorem signal_processing_amended (cfg : RiskConfig) (bars : List Bar)
    (s : Signal) (rest : List Signal) (cap : ℚ) :
    processSignals cfg bars [] cap = [] ∧
    (cap ≤ 0 → processSignals cfg bars (s :: rest) cap = []) ∧
    (0 < cap → (exitDataOf bars s).isEmpty = true →
      processSignals cfg bars (s :: rest) cap = processSignals cfg bars rest cap) ∧
    (0 < cap → (exitDataOf bars s).isEmpty = false →
      processSignals cfg bars (s :: rest) cap =
        simulateTrade cfg bars s cap ::
          processSignals cfg bars rest (simulateTrade cfg bars s cap).capital) := by
  refine ⟨rfl, ?_, ?_, ?_⟩
  · intro h
    simp [processSignals, h]
  · intro h h2
    simp [processSignals, not_le.mpr h, h2]
  · intro h h2
    simp [processSignals, not_le.mpr h, h2]

/-- Witness for C3 (amended), exercising all three guarded cases at concrete
inputs: a positive-capital signal with a post-entry bar opens one trade, the
same signal is dropped at capital 0, and a signal with no post-entry bars is
skipped. -/
theorem signal_processing_amended_witness :
    processSignals engineConfig [⟨1, 100, 506/5, 497/5, 100⟩] [⟨0, .long, 100⟩] 10000 =
      [simulateTrade engineConfig [⟨1, 100, 506/5, 497/5, 100⟩] ⟨0, .long, 100⟩ 10000] ∧
    processSignals engineConfig [⟨1, 100, 506/5, 497/5, 100⟩] [⟨0, .long, 100⟩] (0 : ℚ) = [] ∧
    processSignals engineConfig [⟨1, 100, 506/5, 497/5, 100⟩] [⟨2, .long, 100⟩] 10000 = [] :=
  ⟨(signal_processing_amended engineConfig [⟨1, 100, 506/5, 497/5, 100⟩]
      ⟨0, .long, 100⟩ [] 10000).2.2.2 (by norm_num) (by decide),
   (signal_processing_amended engineConfig [⟨1, 100, 506/5, 497/5, 100⟩]
      ⟨0, .long, 100⟩ [] 0).2.1 le_rfl,
   (signal_processing_amended engineConfig [⟨1, 100, 506/5, 497/5, 100⟩]
      ⟨2, .long, 100⟩ [] 10000).2.2.1 (by norm_num) (by decide)⟩

/-- Claim C4 counterexample: with zero signals, `run_backtest` reports the
condition as an error — it returns the same `{"error": ...}`-shaped record
as the failure path, not an error-free empty-result marker. -/
theorem empty_signal_error_counterexample :
    (runBacktest 10000 [] [⟨1, 100, 506/5, 497/5, 100⟩] "BTCUSDT" "vwap_ib").isErr = true := by
  rfl

/-- Claim C4 (amended): with zero signals, `run_backtest` does not raise; it
returns the dict `{"error": "No signals generated for {asset} with strategy
{strategy_id}"}`, which has the same `"error"` shape as strategy failures
and is distinguishable from them only by the message text; with at least one
signal it returns the non-error result dict. -/
theorem empty_signal_error_amended (cap : ℚ) (bars : List Bar) (asset sid : String) :
    runBacktest cap [] bars asset sid =
      .error ("No signals generated for " ++ asset ++ " with strategy " ++ sid) ∧
    (∀ signals : List Signal, signals ≠ [] →
      (runBacktest cap signals bars asset sid).isErr = false) := by
  constructor
  · rfl
  · intro signals hne
    cases signals with
    | nil => exact absurd rfl hne
    | cons s rest => rfl

/-- Witness for C4 (amended): concrete empty and nonempty signal sets. -/
theorem empty_signal_error_amended_witness :
    runBacktest 10000 [] [⟨1, 100, 506/5, 497/5, 100⟩] "BTCUSDT" "vwap_ib" =
      .error ("No signals generated for " ++ "BTCUSDT" ++ " with strategy " ++ "vwap_ib") ∧
    (runBacktest 10000 [⟨0, .long, 100⟩] [⟨1, 100, 506/5, 497/5, 100⟩] "BTCUSDT"
        "vwap_ib").isErr = false :=
  ⟨(empty_signal_error_amended 10000 [⟨1, 100, 506/5, 497/5, 100⟩] "BTCUSDT" "vwap_ib").1,
   (empty_signal_error_amended 10000 [⟨1, 100, 506/5, 497/5, 100⟩] "BTCUSDT" "vwap_ib").2
     [⟨0, .long, 100⟩] (by decide)⟩

/-- Claim C5: the metrics calculator handles degenerate inputs totally: a
nonempty all-winning trade list yields the positive-infinity profit-factor
sentinel, and an empty trade list yields the empty metrics dict — in both
cases a value is returned, not an exception. -/
theorem metrics_degenerate (trades : List Trade) (cap : ℚ)
    (hne : trades ≠ []) (hwin : ∀ t ∈ trades, 0 < t.pnl) :
    (calcPerformanceMetrics trades cap).profitFactor? = some .inf ∧
    calcPerformanceMetrics [] cap = .empty := by
  refine ⟨?_, rfl⟩
  obtain ⟨t0, rest, rfl⟩ := List.exists_cons_of_ne_nil hne
  have hlos : (t0 :: rest).filter (fun t => decide (t.pnl < 0)) = [] := by
    rw [List.filter_eq_nil_iff]
    intro t ht
    simpa using not_lt.mpr (le_of_lt (hwin t ht))
  simp [calcPerformanceMetrics, MetricsResult.profitFactor?, hlos]

/-- A single winning trade used as witness input. -/
def tradeWinEx : Trade :=
  { entry_time := 0, exit_time := 1, signal := .long, entry_price := 100,
    exit_price := 101, exit_reason := "take_profit", pnl := 5, pnl_pct := 1/100,
    capital := 10005, stop_price := 199/2, target_price := 101 }

/-- Witness for C5 at a concrete all-winning trade list and the empty list. -/
theorem metrics_degenerate_witness :
    (calcPerformanceMetrics [tradeWinEx] 10000).profitFactor? = some .inf ∧
    calcPerformanceMetrics [] 10000 = .empty :=
  metrics_degenerate [tradeWinEx] 10000 (by simp)
    (by
      intro t ht
      rw [List.mem_singleton] at ht
      subst ht
      norm_num [tradeWinEx])

mutual

/-- After sanitization no NaN/Infinity remains in a JSON value. -/
theorem sanitize_clean : ∀ v, nanInfFree (sanitizeForJson v) = true
  | .nan => rfl
  | .inf => rfl
  | .null => rfl
  | .bool _ => rfl
  | .num _ => rfl
  | .str _ => rfl
  | .arr xs => by simp [sanitizeForJson, nanInfFree, sanitize_clean_arr xs]
  | .obj fs => by simp [sanitizeForJson, nanInfFree, sanitize_clean_obj fs]

/-- After sanitization no NaN/Infinity remains in a JSON list. -/
theorem sanitize_clean_arr : ∀ xs, nanInfFreeArr (sanitizeArr xs) = true
  | [] => rfl
  | v :: vs => by
    simp [sanitizeArr, nanInfFreeArr, sanitize_clean v, sanitize_clean_arr vs]

/-- After sanitization no NaN/Infinity remains in a JSON dict. -/
theorem sanitize_clean_obj : ∀ fs, nanInfFreeObj (sanitizeObj fs) = true
  | [] => rfl
  | (k, v) :: fs => by
    simp [sanitizeObj, nanInfFreeObj, sanitize_clean v, sanitize_clean_obj fs]

end

/-- Claim C6: every floating value crossing the external boundary is finite
or explicitly null: `sanitize_for_json`, which the backtest route applies to
the full result record before returning it, maps every NaN and Infinity
(including an infinite profit factor from the metrics dict) to null and
leaves no NaN/Infinity anywhere in its output. -/
theorem boundary_sanitized :
    (∀ v, nanInfFree (sanitizeForJson v) = true) ∧
    sanitizeForJson .inf = .null ∧
    sanitizeForJson .nan = .null ∧
    (∀ m : PerfMetrics, m.profit_factor = .inf →
      jsonField (sanitizeForJson (metricsToJson m)) "profit_factor" = some .null) := by
  refine ⟨sanitize_clean, rfl, rfl, ?_⟩
  intro m hm
  rw [metricsToJson, hm]
  rfl

/-- Witness for C6 at a metrics record carrying the infinity sentinel. -/
theorem boundary_sanitized_witness :
    jsonField (sanitizeForJson (metricsToJson ⟨0, 1, 1, 5, 0, .inf, 0⟩)) "profit_factor" =
      some .null :=
  boundary_sanitized.2.2.2 ⟨0, 1, 1, 5, 0, .inf, 0⟩ rfl

/-- Claim C7 counterexample: on the close series [10, 11, 10, 11] with
period 2, the strategy's rolling-mean RSI at the last bar is 50, while
Wilder's recursively smoothed RSI is 75 — `calculate_rsi` does not implement
Wilder's recursive smoothing. -/
theorem rsi_wilder_counterexample :
    rsiAt [10, 11, 10, 11] 2 3 = some 50 ∧
    wilderRsiAt [10, 11, 10, 11] 2 3 = some 75 ∧
    rsiAt [10, 11, 10, 11] 2 3 ≠ wilderRsiAt [10, 11, 10, 11] 2 3 := by
  have h1 : rsiAt [10, 11, 10, 11] 2 3 = some 50 := by
    norm_num [rsiAt, avgGainAt, avgLossAt, gainAt, lossAt, deltaAt, List.range_succ]
  have h2 : wilderRsiAt [10, 11, 10, 11] 2 3 = some 75 := by
    norm_num [wilderRsiAt, wilderSmooth, gainAt, lossAt, deltaAt, List.range_succ]
  refine ⟨h1, h2, ?_⟩
  rw [h1, h2]
  norm_num

/-- During a run of bars whose RSI is defined and below the oversold
threshold, a latch already at LONG emits nothing: no LONG can fire (latch),
and no SHORT can fire because oversold ≤ overbought. -/
theorem rsiLoop_below_keeps_long (oversold overbought : ℚ)
    (hoo : oversold ≤ overbought) (run : List (ℕ × Option ℚ × ℚ))
    (hrun : ∀ e ∈ run, ∃ r, e.2.1 = some r ∧ r < oversold) :
    rsiLoop oversold overbought run .long = [] := by
  induction run with
  | nil => rfl
  | cons e rest ih =>
    obtain ⟨r, hr1, hr2⟩ := hrun e (List.mem_cons_self e rest)
    obtain ⟨t, r?, c⟩ := e
    have hr1' : r? = some r := hr1
    subst hr1'
    have hnb : ¬ (overbought < r) := not_lt.mpr (le_of_lt (lt_of_lt_of_le hr2 hoo))
    simp [rsiLoop, hnb]
    exact ih fun y hy => hrun y (List.mem_cons_of_mem _ hy)

/-- Claim C7 (amended): the RSI strategy computes RSI from simple rolling
means of gains and losses (a Cutler-style ratio, not Wilder's recursive
smoothing); bars with undefined RSI are skipped; and under the 3-state
latch, a run of consecutive bars whose RSI is defined and below the oversold
threshold (oversold ≤ overbought) emits exactly one LONG signal — at the
run's first bar — when the latch is not already LONG, and none when it
is. -/
theorem rsi_latch_amended (oversold overbought : ℚ) (hoo : oversold ≤ overbought)
    (pos : Latch) (run : List (ℕ × Option ℚ × ℚ))
    (hrun : ∀ e ∈ run, ∃ r, e.2.1 = some r ∧ r < oversold) :
    (pos = .long → rsiLoop oversold overbought run pos = []) ∧
    (pos ≠ .long → ∀ t r c rest2, run = (t, some r, c) :: rest2 →
      rsiLoop oversold overbought run pos = [⟨t, .long, c, r⟩]) ∧
    (∀ t c rest2 pos2, rsiLoop oversold overbought ((t, none, c) :: rest2) pos2 =
      rsiLoop oversold overbought rest2 pos2) ∧
    (∀ period closes, generateSignalsRSI period oversold overbought closes =
      rsiLoop oversold overbought
        ((List.range closes.length).map (fun i => (i, rsiAt closes period i, closes.getD i 0)))
        .flat) := by
  refine ⟨?_, ?_, fun t c rest2 pos2 => rfl, fun period closes => rfl⟩
  · intro hp
    subst hp
    exact rsiLoop_below_keeps_long oversold overbought hoo run hrun
  · intro hp t r c rest2 hrunEq
    subst hrunEq
    have hrr : r < oversold := by
      obtain ⟨r0, hr1, hr2⟩ := hrun (t, some r, c) (List.mem_cons_self _ _)
      have hr1' : some r = some r0 := hr1
      cases hr1'
      exact hr2
    have hrest : ∀ e ∈ rest2, ∃ r, e.2.1 = some r ∧ r < oversold :=
      fun e he => hrun e (List.mem_cons_of_mem _ he)
    simp [rsiLoop, hrr, hp,
      rsiLoop_below_keeps_long oversold overbought hoo rest2 hrest]

/-- Witness for C7 (amended): a concrete two-bar run below the oversold
threshold starting from the FLAT latch emits exactly the one LONG signal at
the run's first bar. -/
theorem rsi_latch_amended_witness :
    rsiLoop 30 70 [(5, some 10, 100), (6, some 20, 101)] .flat =
      [⟨5, .long, 100, 10⟩] :=
  (rsi_latch_amended 30 70 (by norm_num) .flat [(5, some 10, 100), (6, some 20, 101)]
    (by
      intro e he
      rw [List.mem_cons, List.mem_singleton] at he
      rcases he with h | h <;> subst h
      · exact ⟨10, rfl, by norm_num⟩
      · exact ⟨20, rfl, by norm_num⟩)).2.1
    (by simp) 5 10 100 [(6, some 20, 101)] rfl

/-- Claim C8: the SMA crossover strategy is edge-triggered: a LONG signal is
produced exactly where the fast>slow position state transitions 0→1 and a
SHORT exactly at 1→0 transitions (never at bar 0, where the diff is NaN);
signals correspond one-to-one to in-range transition bars; and on a close
series whose position state is 1 for 10 consecutive bars before flipping
back, exactly one LONG and one later SHORT are emitted. -/
theorem sma_edge_triggered (fast slow : ℕ) (closes : List ℚ) :
    (∀ i : ℕ, smaCrossAt closes fast slow i = some .long ↔
      1 ≤ i ∧ positionAt closes fast slow (i - 1) = false ∧
        positionAt closes fast slow i = true) ∧
    (∀ i : ℕ, smaCrossAt closes fast slow i = some .short ↔
      1 ≤ i ∧ positionAt closes fast slow (i - 1) = true ∧
        positionAt closes fast slow i = false) ∧
    (∀ s : SmaSignal, s ∈ generateSignalsSMA fast slow closes ↔
      s.timestamp < closes.length ∧ s.price = closes.getD s.timestamp 0 ∧
      smaCrossAt closes fast slow s.timestamp = some s.signal) ∧
    generateSignalsSMA 1 2 [0, 2, 4, 6, 8, 10, 12, 14, 16, 18, 20, 0] =
      [⟨1, .long, 2⟩, ⟨11, .short, 0⟩] := by
  refine ⟨?_, ?_, ?_, ?_⟩
  · intro i
    cases i with
    | zero => simp [smaCrossAt]
    | succ j =>
      cases ha : positionAt closes fast slow (j + 1) <;>
        cases hb : positionAt closes fast slow j <;>
          simp [smaCrossAt, ha, hb]
  · intro i
    cases i with
    | zero => simp [smaCrossAt]
    | succ j =>
      cases ha : positionAt closes fast slow (j + 1) <;>
        cases hb : positionAt closes fast slow j <;>
          simp [smaCrossAt, ha, hb]
  · intro s
    simp only [generateSignalsSMA, List.mem_filterMap, List.mem_range,
      Option.map_eq_some']
    constructor
    · rintro ⟨i, hi, d, hd, rfl⟩
      exact ⟨hi, rfl, hd⟩
    · rintro ⟨hlen, hprice, hcross⟩
      refine ⟨s.timestamp, hlen, s.signal, hcross, ?_⟩
      cases s with
      | mk t d p => simp_all
  · norm_num [generateSignalsSMA, smaCrossAt, positionAt, smaAt,
      List.range_succ, List.filterMap_cons]

/-- The candle scan returns the first breakout signal of the session, if
any: it equals the singleton of the first `sigOf` hit. -/
theorem scanSession_eq_findSome? (ibHigh ibLow : ℚ) :
    ∀ l : List (VBar × Option ℚ), scanSession ibHigh ibLow l =
      ((l.findSome? (sigOf ibHigh ibLow)).map (fun s => [s])).getD []
  | [] => rfl
  | e :: rest => by
    cases h : sigOf ibHigh ibLow e with
    | none =>
      simp [scanSession, List.findSome?_cons, h,
        scanSession_eq_findSome? ibHigh ibLow rest]
    | some s => simp [scanSession, List.findSome?_cons, h]

/-- The candle scan emits at most one signal. -/
theorem scanSession_length_le_one (ibHigh ibLow : ℚ) :
    ∀ l : List (VBar × Option ℚ), (scanSession ibHigh ibLow l).length ≤ 1
  | [] => Nat.zero_le 1
  | e :: rest => by
    cases h : sigOf ibHigh ibLow e with
    | none =>
      simpa [scanSession, h] using scanSession_length_le_one ibHigh ibLow rest
    | some s => simp [scanSession, h]

/-- Claim C9: the VWAP+IB strategy emits at most one signal per session; a
session whose Initial-Balance sub-window has no bars produces nothing; the
candle scan returns exactly the first bar whose close breaks out above
ib_high and vwap (LONG, checked first) or below ib_low and vwap (SHORT), and
stops there; and the full generator is the concatenation of the per-session
results. -/
theorem vwap_session_unique (p : VWAPParams) (daily : List VBar) :
    ((betweenTime p.ibStart p.ibEnd
        (betweenTime p.sessionStart p.sessionEnd daily)).isEmpty = true →
      processSession p daily = []) ∧
    (processSession p daily).length ≤ 1 ∧
    (∀ ibHigh ibLow l, scanSession ibHigh ibLow l =
      ((l.findSome? (sigOf ibHigh ibLow)).map (fun s => [s])).getD []) ∧
    (∀ sessions : List (List VBar), generateSignalsVWAP p sessions =
      (sessions.map (fun d => processSession p d)).flatten) := by
  refine ⟨?_, ?_, fun h lo l => scanSession_eq_findSome? h lo l, fun sessions => rfl⟩
  · intro hib
    unfold processSession
    by_cases hs : (betweenTime p.sessionStart p.sessionEnd daily).isEmpty
    · simp [hs]
    · simp [hs, hib]
  · unfold processSession
    by_cases hs : (betweenTime p.sessionStart p.sessionEnd daily).isEmpty
    · simp [hs]
    · by_cases hib : (betweenTime p.ibStart p.ibEnd
          (betweenTime p.sessionStart p.sessionEnd daily)).isEmpty
      · simp [hs, hib]
      · by_cases htr : (betweenTime p.ibEnd p.sessionEnd
            (betweenTime p.sessionStart p.sessionEnd daily)).isEmpty
        · simp [hs, hib, htr]
        · simp [hs, hib, htr, scanSession_length_le_one]

/-- Witness for C9: a session whose IB sub-window is empty yields no signal,
and a concrete breakout session yields at most one. -/
theorem vwap_session_unique_witness :
    processSession ⟨0, 10, 0, 100⟩ [⟨20, 12, 10, 11, 1⟩] = [] ∧
    (processSession ⟨0, 10, 0, 100⟩
        [⟨5, 10, 9, 10, 1⟩, ⟨20, 12, 10, 11, 1⟩, ⟨30, 13, 11, 12, 1⟩]).length ≤ 1 :=
  ⟨(vwap_session_unique ⟨0, 10, 0, 100⟩ [⟨20, 12, 10, 11, 1⟩]).1 (by decide),
   (vwap_session_unique ⟨0, 10, 0, 100⟩
      [⟨5, 10, 9, 10, 1⟩, ⟨20, 12, 10, 11, 1⟩, ⟨30, 13, 11, 12, 1⟩]).2.1⟩

/-- Membership characterization of the validator's output list. -/
theorem mem_validateSignals (conf : Signal → ℚ) (tr fb : Bool) (threshold : ℚ)
    (sigs : List Signal) (v : ValidatedSignal) :
    v ∈ validateSignals conf tr fb threshold sigs ↔
      ∃ s ∈ sigs, ((fb && !tr) || decide (threshold ≤ conf s)) = true ∧
        v = ⟨s.timestamp, s.signal, s.price, s.signal, conf s,
          decide (threshold ≤ conf s)⟩ := by
  simp only [validateSignals, List.mem_filterMap]
  constructor
  · rintro ⟨s, hs, hsome⟩
    by_cases h : ((fb && !tr) || decide (threshold ≤ conf s)) = true
    · rw [if_pos h] at hsome
      cases hsome
      exact ⟨s, hs, h, rfl⟩
    · rw [if_neg h] at hsome
      exact absurd hsome (by simp)
  · rintro ⟨s, hs, h, rfl⟩
    exact ⟨s, hs, by rw [if_pos h]⟩

/-- Claim C10: when the classifier is trained, every signal kept by the ML
validator has confidence at least the threshold and is marked validated —
sub-threshold signals are removed, not flagged; a signal marked
`ml_validated = false` can appear in the output only when the classifier is
untrained and `fallback_to_original` is set. -/
theorem validator_filtering (conf : Signal → ℚ) (fallback : Bool)
    (threshold : ℚ) (signals : List Signal) :
    (∀ v ∈ validateSignals conf true fallback threshold signals,
      threshold ≤ v.ml_confidence ∧ v.ml_validated = true) ∧
    (∀ (tr fb : Bool), ∀ v ∈ validateSignals conf tr fb threshold signals,
      v.ml_validated = false → tr = false ∧ fb = true) := by
  constructor
  · intro v hv
    rw [mem_validateSignals] at hv
    obtain ⟨s, hs, hcond, rfl⟩ := hv
    simp only [Bool.not_true, Bool.and_false, Bool.false_or] at hcond
    exact ⟨of_decide_eq_true hcond, hcond⟩
  · intro tr fb v hv hval
    rw [mem_validateSignals] at hv
    obtain ⟨s, hs, hcond, rfl⟩ := hv
    have hval' : decide (threshold ≤ conf s) = false := hval
    rw [hval', Bool.or_false, Bool.and_eq_true] at hcond
    exact ⟨by simpa using hcond.2, hcond.1⟩

/-- Witness for C10: with a trained classifier, a concrete above-threshold
signal is kept with `ml_validated = true` and confidence ≥ threshold. -/
theorem validator_filtering_witness :
    (65/100 : ℚ) ≤ (⟨9, .long, 1, .long, 9/10, true⟩ : ValidatedSignal).ml_confidence ∧
    (⟨9, .long, 1, .long, 9/10, true⟩ : ValidatedSignal).ml_validated = true := by
  have hd : decide ((65:ℚ)/100 ≤ 9/10) = true := decide_eq_true (by norm_num)
  have hl : validateSignals (fun _ => (9:ℚ)/10) true true (65/100) [⟨9, .long, 1⟩] =
      [⟨9, .long, 1, .long, 9/10, true⟩] := by
    simp [validateSignals, hd]
  exact (validator_filtering (fun _ => (9:ℚ)/10) true (65/100) [⟨9, .long, 1⟩]).1
    ⟨9, .long, 1, .long, 9/10, true⟩ (by rw [hl]; exact List.mem_singleton_self _)

end P1Backtest
